import Mathlib

/-!
Shallow embedding of the Behavioral-Advocate-Tool repository
(src/app.py and src/batch_test_gpt.py): a JSON value model with a
parser mirroring the strict mode of json.loads from the Python
standard library, the regular-expression substring extractors used by
the scripts, the strategy matcher, the LLM post-processing stages, the
generate-run block of the Streamlit script, and the history navigation
buttons.  LLM calls are modelled as oracle inputs: an Option String
that is none when the call (or a prompt-file load inside the same try
block) raised, and some text when it returned a completion.
-/

/-- JSON values as produced by json.loads.  Numbers keep their raw
numeral text, since no claim depends on numeric semantics; a Python
None is represented by Json.null. -/
inductive Json where
  | null
  | bool (b : Bool)
  | num (raw : String)
  | str (s : String)
  | arr (elems : List Json)
  | obj (fields : List (String × Json))

/-- Whitespace accepted between JSON tokens by json.loads (space, tab,
newline, carriage return). -/
def isJsonWs (c : Char) : Bool :=
  c = ' ' || c = '\t' || c = '\n' || c = '\r'

/-- Drop leading JSON whitespace. -/
def skipWs : List Char → List Char
  | [] => []
  | c :: cs => if isJsonWs c then skipWs cs else c :: cs

/-- Value of a hexadecimal digit, as used for the \uXXXX escape. -/
def hexVal (c : Char) : Option Nat :=
  let n := c.toNat
  if 48 ≤ n ∧ n ≤ 57 then some (n - 48)
  else if 97 ≤ n ∧ n ≤ 102 then some (n - 87)
  else if 65 ≤ n ∧ n ≤ 70 then some (n - 55)
  else none

/-- Body of a JSON string literal, after the opening quote has been
consumed.  Handles the escape sequences accepted by json.loads and
rejects raw control characters, as the strict decoder does.  Lone
\uXXXX escapes are mapped directly to the corresponding code point
(surrogate-pair combining is not modelled; no input in this
development contains surrogates). -/
def parseStringBody : Nat → List Char → List Char → Option (String × List Char)
  | 0, _, _ => none
  | _ + 1, [], _ => none
  | f + 1, c :: rest, acc =>
    if c = '"' then some (String.mk acc.reverse, rest)
    else if c = '\\' then
      match rest with
      | [] => none
      | e :: rest2 =>
        if e = '"' then parseStringBody f rest2 ('"' :: acc)
        else if e = '\\' then parseStringBody f rest2 ('\\' :: acc)
        else if e = '/' then parseStringBody f rest2 ('/' :: acc)
        else if e = 'b' then parseStringBody f rest2 ('\x08' :: acc)
        else if e = 'f' then parseStringBody f rest2 ('\x0c' :: acc)
        else if e = 'n' then parseStringBody f rest2 ('\n' :: acc)
        else if e = 'r' then parseStringBody f rest2 ('\r' :: acc)
        else if e = 't' then parseStringBody f rest2 ('\t' :: acc)
        else if e = 'u' then
          match rest2 with
          | h1 :: h2 :: h3 :: h4 :: rest3 =>
            match hexVal h1, hexVal h2, hexVal h3, hexVal h4 with
            | some a, some b, some c2, some d =>
              parseStringBody f rest3
                (Char.ofNat (((a * 16 + b) * 16 + c2) * 16 + d) :: acc)
            | _, _, _, _ => none
          | _ => none
        else none
    else if c.toNat < 32 then none
    else parseStringBody f rest (c :: acc)

/-- Integer part of a JSON number: 0, or a nonzero digit followed by
digits. -/
def parseIntPart : List Char → Option (List Char × List Char)
  | [] => none
  | c :: rest =>
    if c = '0' then some ([c], rest)
    else if c.isDigit then
      some (c :: rest.takeWhile Char.isDigit, rest.dropWhile Char.isDigit)
    else none

/-- Optional fractional part of a JSON number. -/
def parseFracPart : List Char → Option (List Char × List Char)
  | '.' :: rest =>
    let ds := rest.takeWhile Char.isDigit
    if ds.isEmpty then none else some ('.' :: ds, rest.dropWhile Char.isDigit)
  | cs => some ([], cs)

/-- Optional exponent part of a JSON number. -/
def parseExpPart : List Char → Option (List Char × List Char)
  | [] => some ([], [])
  | c :: rest =>
    if c = 'e' ∨ c = 'E' then
      match rest with
      | [] => none
      | s :: rest2 =>
        if s = '+' ∨ s = '-' then
          let ds := rest2.takeWhile Char.isDigit
          if ds.isEmpty then none
          else some (c :: s :: ds, rest2.dropWhile Char.isDigit)
        else
          let ds := rest.takeWhile Char.isDigit
          if ds.isEmpty then none
          else some (c :: ds, rest.dropWhile Char.isDigit)
    else some ([], c :: rest)

/-- A JSON number, returned as its raw text. -/
def parseNumber (cs : List Char) : Option (String × List Char) :=
  let signed : List Char × List Char :=
    match cs with
    | '-' :: r => (['-'], r)
    | _ => ([], cs)
  match parseIntPart signed.2 with
  | none => none
  | some (ip, r1) =>
    match parseFracPart r1 with
    | none => none
    | some (fp, r2) =>
      match parseExpPart r2 with
      | none => none
      | some (ep, r3) => some (String.mk (signed.1 ++ ip ++ fp ++ ep), r3)

/-- Consume an expected literal character sequence. -/
def expectChars (pat : List Char) (cs : List Char) : Option (List Char) :=
  if pat.isPrefixOf cs then some (cs.drop pat.length) else none

mutual

/-- Recursive-descent JSON value parser mirroring json.loads, with a
fuel argument for termination.  Accepts the NaN and Infinity constants
as json.loads does by default. -/
def parseValue : Nat → List Char → Option (Json × List Char)
  | 0, _ => none
  | f + 1, cs =>
    match skipWs cs with
    | [] => none
    | c :: rest =>
      if c = '"' then
        match parseStringBody (rest.length + 1) rest [] with
        | some (s, r) => some (Json.str s, r)
        | none => none
      else if c = '\x7b' then
        match skipWs rest with
        | '\x7d' :: r2 => some (Json.obj [], r2)
        | r2 => parseMembers f r2 []
      else if c = '[' then
        match skipWs rest with
        | ']' :: r2 => some (Json.arr [], r2)
        | r2 => parseElems f r2 []
      else if c = 't' then
        (expectChars ("rue").data rest).map (fun r => (Json.bool true, r))
      else if c = 'f' then
        (expectChars ("alse").data rest).map (fun r => (Json.bool false, r))
      else if c = 'n' then
        (expectChars ("ull").data rest).map (fun r => (Json.null, r))
      else if c = 'N' then
        (expectChars ("aN").data rest).map (fun r => (Json.num ("NaN"), r))
      else if c = 'I' then
        (expectChars ("nfinity").data rest).map (fun r => (Json.num ("Infinity"), r))
      else if c = '-' then
        match rest with
        | 'I' :: _ =>
          (expectChars ("Infinity").data rest).map (fun r => (Json.num ("-Infinity"), r))
        | _ =>
          match parseNumber (c :: rest) with
          | some (s, r) => some (Json.num s, r)
          | none => none
      else
        match parseNumber (c :: rest) with
        | some (s, r) => some (Json.num s, r)
        | none => none

/-- Elements of a JSON array, positioned before a value. -/
def parseElems : Nat → List Char → List Json → Option (Json × List Char)
  | 0, _, _ => none
  | f + 1, cs, acc =>
    match parseValue f cs with
    | none => none
    | some (v, r) =>
      match skipWs r with
      | ',' :: r2 => parseElems f r2 (v :: acc)
      | ']' :: r2 => some (Json.arr (v :: acc).reverse, r2)
      | _ => none

/-- Members of a JSON object, positioned before a key. -/
def parseMembers : Nat → List Char → List (String × Json) → Option (Json × List Char)
  | 0, _, _ => none
  | f + 1, cs, acc =>
    match skipWs cs with
    | '"' :: r =>
      match parseStringBody (r.length + 1) r [] with
      | none => none
      | some (k, r1) =>
        match skipWs r1 with
        | ':' :: r2 =>
          match parseValue f r2 with
          | none => none
          | some (v, r3) =>
            match skipWs r3 with
            | ',' :: r4 => parseMembers f r4 ((k, v) :: acc)
            | '\x7d' :: r4 => some (Json.obj ((k, v) :: acc).reverse, r4)
            | _ => none
        | _ => none
    | _ => none

end

/-- json.loads on a character list: parse one value and require only
whitespace to remain. -/
def jsonLoadsChars (cs : List Char) : Option Json :=
  match parseValue (2 * cs.length + 4) cs with
  | some (v, rest) => if (skipWs rest).isEmpty then some v else none
  | none => none

/-- json.loads on a string. -/
def jsonLoads (s : String) : Option Json := jsonLoadsChars s.data

/-- Python dict.get on a decoded JSON object: later duplicate keys win,
as when json.loads builds the dict; returns none for a missing key. -/
def Json.getKey : Json → String → Option Json
  | Json.obj fields, k =>
    (fields.reverse.find? (fun kv => decide (kv.fst = k))).map (fun kv => kv.snd)
  | _, _ => none

/-- True when every mantissa digit of a raw JSON numeral is zero, so
the corresponding Python float or int equals zero. -/
def mantissaAllZero (raw : String) : Bool :=
  let ds := (raw.data.takeWhile (fun c => decide (c ≠ 'e' ∧ c ≠ 'E'))).filter Char.isDigit
  !ds.isEmpty && ds.all (fun c => decide (c = '0'))

/-- Python truthiness of a decoded JSON value (None, False, zero, and
empty containers are falsy; NaN and Infinity are truthy). -/
def Json.truthy : Json → Bool
  | Json.null => false
  | Json.bool b => b
  | Json.num raw => !mantissaAllZero raw
  | Json.str s => !s.isEmpty
  | Json.arr xs => !xs.isEmpty
  | Json.obj kvs => !kvs.isEmpty

/-- Whitespace stripped by the Python str.strip() default (the ASCII
whitespace characters; the rare non-ASCII space code points are not
modelled, and no input here contains them). -/
def isPySpace (c : Char) : Bool :=
  c = ' ' || c = '\t' || c = '\n' || c = '\r' || c = '\x0b' || c = '\x0c'

/-- Python str.strip() with no argument. -/
def pyStrip (cs : List Char) : List Char :=
  ((cs.dropWhile isPySpace).reverse.dropWhile isPySpace).reverse

/-- Python str.strip(chars): remove from both ends every character that
belongs to the given set. -/
def pyStripChars (set : List Char) (cs : List Char) : List Char :=
  ((cs.dropWhile (fun c => set.contains c)).reverse.dropWhile
      (fun c => set.contains c)).reverse

/-- Longest prefix of the list ending at the first occurrence of the
target character, inclusive. -/
def takeUntilFirstIncl (t : Char) : List Char → List Char
  | [] => []
  | c :: r => if c = t then [c] else c :: takeUntilFirstIncl t r

/-- Prefix of the list through the last occurrence of the target
character; meaningful when the target occurs. -/
def takeUntilLastIncl (t : Char) (cs : List Char) : List Char :=
  (cs.reverse.dropWhile (fun c => decide (c ≠ t))).reverse

/-- Semantics of re.search with the greedy pattern of an opening brace,
any characters (DOTALL), and a closing brace: the match starts at the
leftmost opening brace that is followed by some closing brace, and
extends through the last closing brace of the text.  Returns none when
no such pair exists, the case in which the Python call returns None. -/
def braceSearch : List Char → Option (List Char)
  | [] => none
  | c :: rest =>
    if c = '\x7b' && rest.contains '\x7d' then
      some ('\x7b' :: takeUntilLastIncl '\x7d' rest)
    else braceSearch rest

/-- Semantics of re.search with the non-greedy pattern of an opening
square bracket, a minimal run of any characters (DOTALL), and a
closing square bracket: the match starts at the leftmost opening
bracket followed by some closing bracket and stops at the first
closing bracket after it. -/
def bracketSearch : List Char → Option (List Char)
  | [] => none
  | c :: rest =>
    if c = '[' && rest.contains ']' then
      some ('[' :: takeUntilFirstIncl ']' rest)
    else bracketSearch rest

/-- Drop trailing Python whitespace. -/
def dropTrailingWs (cs : List Char) : List Char :=
  (cs.reverse.dropWhile isPySpace).reverse

/-- Strategy records as loaded from strategies.json.  The tags field is
an Option because src/app.py reads it with s.get("tags", []) while
src/batch_test_gpt.py indexes s["tags"], so whether the key exists is
observable. -/
structure Strategy where
  title : String
  description : String
  tags : Option (List String)
  deriving DecidableEq

/-- Lexicographic comparison of character lists by code point, the
order Python uses to compare strings. -/
def charListLe : List Char → List Char → Bool
  | [], _ => true
  | _ :: _, [] => false
  | a :: as, b :: bs => if a = b then charListLe as bs else decide (a < b)

/-- Python string comparison. -/
def strLe (a b : String) : Bool := charListLe a.data b.data

/-- Python sorted(set(l)) for a list of strings: the distinct elements
in ascending lexicographic order. -/
def sortedSet (l : List String) : List String :=
  List.insertionSort (fun a b => strLe a b = true) l.dedup

/-- Python exception kinds raised by the modelled code paths. -/
inductive PyErr where
  | keyError
  | attributeError
  | jsonDecodeError
  deriving DecidableEq

namespace App

/-- filter_strategies_by_tags from src/app.py (lines 65-68): keep, in
load order, every strategy whose tag list (empty when the tags key is
missing) meets the detected tags, and pair it with the sorted set of
detected tags occurring in some matched strategy. -/
def filter_strategies_by_tags (all_strats : List Strategy) (tags : List String) :
    List Strategy × List String :=
  let matched := all_strats.filter
    (fun s => tags.any (fun t => decide (t ∈ s.tags.getD [])))
  let matched_tags := sortedSet
    ((matched.map (fun s => (s.tags.getD []).filter (fun t => decide (t ∈ tags)))).flatten)
  (matched, matched_tags)

/-- extract_tags from src/app.py (lines 70-82), with the chat
completion modelled as an oracle: none when the call (or the prompt
load) raised, some content otherwise.  The whole stripped response is
passed to json.loads; any exception is caught and an empty list
returned. -/
def extract_tags (resp : Option String) : Json :=
  match resp with
  | none => Json.arr []
  | some content =>
    match jsonLoadsChars (pyStrip content.data) with
    | some v => v
    | none => Json.arr []

end App

namespace Batch

/-- One strategy test of filter_strategies_by_tags from
src/batch_test_gpt.py (line 34): the generator inside any() never
touches s["tags"] when detected_tags is empty, otherwise a missing
tags key raises KeyError. -/
def anyTagMatch (s : Strategy) (detected_tags : List String) : Except PyErr Bool :=
  match detected_tags with
  | [] => Except.ok false
  | _ =>
    match s.tags with
    | none => Except.error PyErr.keyError
    | some ts => Except.ok (detected_tags.any (fun t => decide (t ∈ ts)))

/-- The list comprehension of line 34, evaluated left to right with the
first KeyError propagating. -/
def matchedE (detected_tags : List String) : List Strategy → Except PyErr (List Strategy)
  | [] => Except.ok []
  | s :: rest =>
    match anyTagMatch s detected_tags with
    | Except.error e => Except.error e
    | Except.ok b =>
      match matchedE detected_tags rest with
      | Except.error e => Except.error e
      | Except.ok tail => Except.ok (if b then s :: tail else tail)

/-- The s["tags"] accesses of the set comprehension on line 35,
evaluated left to right. -/
def tagsOfMatchedE : List Strategy → Except PyErr (List (List String))
  | [] => Except.ok []
  | s :: rest =>
    match s.tags with
    | none => Except.error PyErr.keyError
    | some ts =>
      match tagsOfMatchedE rest with
      | Except.error e => Except.error e
      | Except.ok tls => Except.ok (ts :: tls)

/-- filter_strategies_by_tags from src/batch_test_gpt.py (lines 33-36);
unlike the src/app.py copy it indexes s["tags"] directly, so the result
is an Except that errors when a strategy record lacks the tags key and
the detected tag list is non-empty. -/
def filter_strategies_by_tags (all_strategies : List Strategy)
    (detected_tags : List String) : Except PyErr (List Strategy × List String) :=
  match matchedE detected_tags all_strategies with
  | Except.error e => Except.error e
  | Except.ok matched =>
    match tagsOfMatchedE matched with
    | Except.error e => Except.error e
    | Except.ok tagLists =>
      Except.ok (matched, sortedSet
        ((tagLists.map (fun ts => ts.filter (fun t => decide (t ∈ detected_tags)))).flatten))

/-- extract_tags from src/batch_test_gpt.py (lines 38-69): strip the
response, locate the first minimal bracketed substring, decode it, and
return it together with the raw stripped content; any failure (call
error, no bracket pair, decode error) is caught and yields an empty
list with empty raw text. -/
def extract_tags (resp : Option String) : Json × String :=
  match resp with
  | none => (Json.arr [], "")
  | some raw =>
    let content := pyStrip raw.data
    match bracketSearch content with
    | none => (Json.arr [], "")
    | some sub =>
      match jsonLoadsChars sub with
      | none => (Json.arr [], "")
      | some v => (v, String.mk content)

end Batch

/-- Code-fence removal on line 100 of src/app.py: re.sub in MULTILINE
mode replacing, left to right without overlap, three opening backticks
at a line start (optionally followed by the letters json) or three
backticks at a line end.  The Bool argument records whether the current
position is at a line start. -/
def rebuttalSubAux : Nat → Bool → List Char → List Char
  | 0, _, cs => cs
  | f + 1, atStart, cs =>
    match cs with
    | [] => []
    | c :: rest =>
      if atStart && (("```json").data.isPrefixOf cs) then
        rebuttalSubAux f false (cs.drop 7)
      else if atStart && (("```").data.isPrefixOf cs) then
        rebuttalSubAux f false (cs.drop 3)
      else if (("```").data.isPrefixOf cs)
          && (cs.drop 3 = [] || (cs.drop 3).head? = some '\n') then
        rebuttalSubAux f false (cs.drop 3)
      else c :: rebuttalSubAux f (c = '\n') rest

/-- Text cleanup in generate_rebuttal (src/app.py lines 96-101): strip
the response, and when it starts with a code fence apply the MULTILINE
fence removal and strip again. -/
def rebuttalPreprocess (content : String) : List Char :=
  let txt := pyStrip content.data
  if (("```json").data.isPrefixOf txt) || (("```").data.isPrefixOf txt) then
    pyStrip (rebuttalSubAux (txt.length + 1) true (pyStrip txt))
  else txt

/-- generate_rebuttal from src/app.py (lines 84-106).  The chat
completion is an oracle input; every exception inside the try block
(call error, missing brace pair raising AttributeError, decode error)
is caught and the empty string returned.  When the object decodes but
has no rebuttal key, dict.get supplies the placeholder text. -/
def generate_rebuttal (resp : Option String) : Json :=
  match resp with
  | none => Json.str ("")
  | some content =>
    match braceSearch (rebuttalPreprocess content) with
    | none => Json.str ("")
    | some sub =>
      match jsonLoadsChars sub with
      | none => Json.str ("")
      | some parsed =>
        match parsed.getKey ("rebuttal") with
        | some v => v
        | none => Json.str ("[Rebuttal missing]")

/-- Result record built by evaluate_reply in src/app.py.  The failure
value sets confidence_score to None and justification to the fixed
marker text, with the two remaining fields empty. -/
structure EvalResult where
  confidence_score : Json
  justification : String
  suggested_improvements : String
  ultimate_reply : String

/-- The dictionary returned from the except branch of evaluate_reply
(src/app.py lines 151-156). -/
def evalFailure : EvalResult :=
  ⟨Json.null, "Evaluation failed.", "", ""⟩

/-- Python str.strip() applied to a decoded JSON value: defined only on
strings; on any other value the attribute lookup raises, which the
caller catches. -/
def pyStripJson : Json → Option String
  | Json.str s => some (String.mk (pyStrip s.data))
  | _ => none

/-- Leading code-fence removal on line 130 of src/app.py: re.sub
without MULTILINE, so the anchored pattern can only match at the very
start; it removes three backticks, optionally the letters json, and
the following whitespace run. -/
def evalFenceHead (cs : List Char) : List Char :=
  if ("```json").data.isPrefixOf cs then (cs.drop 7).dropWhile isPySpace
  else if ("```").data.isPrefixOf cs then (cs.drop 3).dropWhile isPySpace
  else cs

/-- Trailing code-fence removal on line 131 of src/app.py: without
MULTILINE the dollar anchor matches at the end of the text or just
before a final newline, so at most one match exists; it removes the
closing backticks and the whitespace run before them. -/
def evalFenceTail (cs : List Char) : List Char :=
  if cs.getLast? = some '\n' then
    let body := cs.dropLast
    if ("```").data.isSuffixOf body then
      dropTrailingWs (body.dropLast.dropLast.dropLast) ++ ['\n']
    else cs
  else if ("```").data.isSuffixOf cs then
    dropTrailingWs (cs.dropLast.dropLast.dropLast)
  else cs

/-- Text cleanup in evaluate_reply (src/app.py lines 127-131): strip,
then remove a leading and a trailing code fence. -/
def evalPreprocess (content : String) : List Char :=
  evalFenceTail (evalFenceHead (pyStrip content.data))

/-- evaluate_reply from src/app.py (lines 108-156), with the chat
completion as an oracle input.  Every exception inside the try block
is caught and the failure record returned, so the function never
raises past the pipeline boundary; this includes the ValueError raised
when no brace pair is found, decode errors, and the AttributeError
from calling strip() on a non-string field value. -/
def evaluate_reply (resp : Option String) : EvalResult :=
  match resp with
  | none => evalFailure
  | some content =>
    match braceSearch (evalPreprocess content) with
    | none => evalFailure
    | some block =>
      match jsonLoadsChars block with
      | none => evalFailure
      | some parsed =>
        match pyStripJson ((parsed.getKey ("justification")).getD (Json.str (""))),
              pyStripJson ((parsed.getKey ("suggested_improvements")).getD (Json.str (""))),
              pyStripJson ((parsed.getKey ("ultimate_reply")).getD (Json.str (""))) with
        | some j, some si, some ur =>
          ⟨(parsed.getKey ("confidence_score")).getD Json.null, j, si, ur⟩
        | _, _, _ => evalFailure

/-- The normalized fields read from the decoded reply-generation object
on lines 306-309 of src/app.py, together with the Python truthiness of
needs_clarification on which line 310 branches. -/
structure NormalizedParsed where
  itype : Json
  msg : Json
  needs : Bool
  expl : Json
  just : Json

/-- Field normalization of the decoded reply-generation object
(src/app.py lines 306-310): dict.get defaults for input_type, message
and tags, and the Python or-expression for explanation, whose left
operand is the raw explanation value and whose right operand is the
placeholder only under a truthy needs_clarification. -/
def normalizeParsed (parsed : Json) : NormalizedParsed :=
  let itype := (parsed.getKey ("input_type")).getD (Json.str ("unknown"))
  let msg := (parsed.getKey ("message")).getD
    ((parsed.getKey ("follow_up_question")).getD (Json.str ("")))
  let needs := ((parsed.getKey ("needs_clarification")).getD Json.null).truthy
  let e := (parsed.getKey ("explanation")).getD Json.null
  let expl := if e.truthy then e
    else Json.str (if needs then ("Needs clarification") else (""))
  let just := (parsed.getKey ("tags")).getD (Json.arr [])
  ⟨itype, msg, needs, expl, just⟩

/-- One session history entry as appended by the generate-run block of
src/app.py; fields that the block sets to Python None hold Json.null. -/
structure Run where
  reply : Json
  explanation : Json
  user_input : String
  input_type : Json
  tags : Json
  justification : Json
  matched_tags : List String
  strategies : List Strategy
  rebuttal : Json
  confidence_score : Json
  evaluation_justification : Json
  suggested_improvements : Json
  ultimate_reply : Json
  session_id : String

/-- The Streamlit session state touched by the generate-run block:
the run history, the run flag, the browsing index, and the pending
rating and feedback values. -/
structure AppState where
  history : List Run
  runFlag : Bool
  history_index : Option Int
  rating : Option Json
  feedback : Option Json

/-- How one execution of the generate-run block ends: with an uncaught
Python exception (displayed by Streamlit as a traceback), with the
rerun raised after appending a clarification entry, or normally after
appending a completed entry. -/
inductive StepOutcome where
  | exception (e : PyErr)
  | reranClarification
  | completed

/-- Observable result of one execution of the generate-run block: the
session state afterwards, how the block ended, and whether the
rebuttal and evaluation stages were invoked. -/
structure StepResult where
  state : AppState
  outcome : StepOutcome
  rebuttalInvoked : Bool
  evalInvoked : Bool

/-- Lowercase hexadecimal digit. -/
def hexDigit (n : Nat) : Char :=
  if n < 10 then Char.ofNat (48 + n) else Char.ofNat (87 + n)

/-- Four-digit lowercase hexadecimal rendering used by the \uXXXX
escapes of json.dumps. -/
def hexDigits4 (n : Nat) : List Char :=
  [hexDigit (n / 4096 % 16), hexDigit (n / 256 % 16), hexDigit (n / 16 % 16),
   hexDigit (n % 16)]

/-- Escaping of one character by json.dumps with its default
ensure_ascii (code points above the basic multilingual plane would
need surrogate pairs, which no input here contains). -/
def jsonEscapeChar (c : Char) : List Char :=
  if c = '"' then ['\\', '"']
  else if c = '\\' then ['\\', '\\']
  else if c = '\n' then ['\\', 'n']
  else if c = '\t' then ['\\', 't']
  else if c = '\r' then ['\\', 'r']
  else if c = '\x08' then ['\\', 'b']
  else if c = '\x0c' then ['\\', 'f']
  else if c.toNat < 32 ∨ 126 < c.toNat then '\\' :: 'u' :: hexDigits4 c.toNat
  else [c]

/-- json.dumps of the two-field user-input dict built on lines 295 and
305 of src/app.py. -/
def dumpsCommentDraft (comment draft : String) : String :=
  String.mk (("\x7b\"comment\": \"").data
    ++ (comment.data.map jsonEscapeChar).flatten
    ++ ("\", \"draft_reply\": \"").data
    ++ (draft.data.map jsonEscapeChar).flatten
    ++ ("\"\x7d").data)

/-- Code-fence strip on lines 301-302 of src/app.py: only applied when
the response starts with a json fence, and done with str.strip whose
argument is a character set, not a prefix. -/
def stripJsonFence (cs : List Char) : List Char :=
  if ("```json").data.isPrefixOf cs then
    pyStripChars ("```").data (pyStripChars ("```json").data cs)
  else cs

/-- The generate-run block of src/app.py (lines 300-369), entered after
the tag extraction and strategy filtering of lines 265-266 whose
results are passed in, with the reply-generation response text and the
two downstream completions as oracle inputs.  The brace search and
json.loads on line 303 sit outside any try block, so their failures
(AttributeError from None.group, or a decode error) escape as uncaught
exceptions and the session state is left untouched.  In the
clarification branch st.rerun() on line 335 raises, so the rebuttal
and evaluation calls of lines 336-337 are never reached; only the
completed branch resets the pending rating and feedback and moves the
browsing index. -/
def sessionStep (st : AppState) (comment draft session_id : String) (tags : Json)
    (strats : List Strategy) (matched_tags : List String)
    (respText : String) (rebuttalResp evalResp : Option String) : StepResult :=
  match braceSearch (stripJsonFence respText.data) with
  | none => ⟨st, StepOutcome.exception PyErr.attributeError, false, false⟩
  | some sub =>
    match jsonLoadsChars sub with
    | none => ⟨st, StepOutcome.exception PyErr.jsonDecodeError, false, false⟩
    | some parsed =>
      let user_in := dumpsCommentDraft comment draft
      let n := normalizeParsed parsed
      if n.needs then
        let run : Run := ⟨n.msg, n.expl, user_in, n.itype, tags, n.just, matched_tags,
          strats, Json.null, Json.null, Json.null, Json.null, Json.null, session_id⟩
        ⟨{ st with history := st.history ++ [run], runFlag := false },
         StepOutcome.reranClarification, false, false⟩
      else
        let rebuttal := generate_rebuttal rebuttalResp
        let evaluation := evaluate_reply evalResp
        let run : Run := ⟨n.msg, n.expl, user_in, n.itype, tags, n.just, matched_tags,
          strats, rebuttal, evaluation.confidence_score,
          Json.str evaluation.justification, Json.str evaluation.suggested_improvements,
          Json.str evaluation.ultimate_reply, session_id⟩
        let history2 := st.history ++ [run]
        let hidx := if history2.length > 1 then some ((history2.length : Int) - 2)
          else st.history_index
        let st2 : AppState :=
          { st with
            history := history2
            runFlag := false
            history_index := hidx
            rating := none
            feedback := none }
        ⟨st2, StepOutcome.completed, true, true⟩

/-- View state used by the history navigation buttons of src/app.py
(lines 393-408): the run history and the integer browsing index. -/
structure ViewState where
  history : List Run
  history_index : Int

/-- The two navigation buttons. -/
inductive NavAction where
  | prev
  | next

/-- One button click (src/app.py lines 401 and 405): prev clamps the
decremented index at 0, next clamps the incremented index at
total_versions - 1 where total_versions excludes the latest run;
neither touches the history. -/
def navStep (s : ViewState) (a : NavAction) : ViewState :=
  let total_versions : Int := (s.history.length : Int) - 1
  match a with
  | NavAction.prev => { s with history_index := max 0 (s.history_index - 1) }
  | NavAction.next => { s with history_index := min (total_versions - 1) (s.history_index + 1) }

/-- A sequence of navigation clicks. -/
def navRun (s : ViewState) (acts : List NavAction) : ViewState :=
  acts.foldl navStep s

/-- A closed Run value used to build concrete witness states. -/
def sampleRun : Run :=
  ⟨Json.str (""), Json.str (""), "", Json.str ("unknown"), Json.arr [], Json.arr [],
   [], [], Json.null, Json.null, Json.null, Json.null, Json.null, ""⟩

/-- A closed session state with one stored run and the run flag set. -/
def sampleAppState : AppState :=
  ⟨[sampleRun], true, none, none, none⟩

/-- Totality of the lexicographic comparison on character lists. -/
theorem charListLe_total : ∀ as bs, charListLe as bs = true ∨ charListLe bs as = true := by
  intro as
  induction as with
  | nil => intro bs; left; rfl
  | cons a as ih =>
    intro bs
    cases bs with
    | nil => right; rfl
    | cons b bs2 =>
      by_cases h : a = b
      · subst h
        simpa [charListLe] using ih bs2
      · have h2 : b ≠ a := Ne.symm h
        simp only [charListLe, if_neg h, if_neg h2, decide_eq_true_eq]
        rcases lt_trichotomy a b with hlt | heq | hgt
        · exact Or.inl hlt
        · exact absurd heq h
        · exact Or.inr hgt

/-- Transitivity of the lexicographic comparison on character lists. -/
theorem charListLe_trans :
    ∀ as bs cs, charListLe as bs = true → charListLe bs cs = true →
      charListLe as cs = true := by
  intro as
  induction as with
  | nil => intro bs cs h1 h2; rfl
  | cons a as ih =>
    intro bs cs h1 h2
    cases bs with
    | nil => simp [charListLe] at h1
    | cons b bs2 =>
      cases cs with
      | nil => simp [charListLe] at h2
      | cons c cs2 =>
        by_cases hab : a = b
        · subst hab
          by_cases hac : a = c
          · subst hac
            simp only [charListLe, if_pos rfl] at h1 h2 ⊢
            exact ih bs2 cs2 h1 h2
          · simp only [charListLe, if_pos rfl] at h1
            simp only [charListLe, if_neg hac] at h2 ⊢
            exact h2
        · simp only [charListLe, if_neg hab, decide_eq_true_eq] at h1
          by_cases hbc : b = c
          · subst hbc
            simp only [charListLe, if_neg hab, decide_eq_true_eq]
            exact h1
          · simp only [charListLe, if_neg hbc, decide_eq_true_eq] at h2
            have hac : a < c := lt_trans h1 h2
            simp only [charListLe, if_neg (ne_of_lt hac), decide_eq_true_eq]
            exact hac

/-- Membership in sorted(set(l)) is membership in l. -/
theorem mem_sortedSet {t : String} {l : List String} : t ∈ sortedSet l ↔ t ∈ l := by
  unfold sortedSet
  rw [(List.perm_insertionSort _ _).mem_iff, List.mem_dedup]

/-- sorted(set(l)) is sorted in the Python string order. -/
theorem sortedSet_sorted (l : List String) :
    (sortedSet l).Sorted (fun a b => strLe a b = true) :=
  @List.sorted_insertionSort String (fun a b => strLe a b = true)
    (fun a b => instDecidableEqBool (strLe a b) true)
    ⟨fun a b => charListLe_total a.data b.data⟩
    ⟨fun a b c => charListLe_trans a.data b.data c.data⟩ l.dedup

/-- sorted(set(l)) has no duplicates. -/
theorem sortedSet_nodup (l : List String) : (sortedSet l).Nodup :=
  ((List.perm_insertionSort _ _).nodup_iff).mpr (List.nodup_dedup l)

/-- Characterization of membership in the matched strategy list of the
src/app.py matcher. -/
theorem App.mem_matched {S : List Strategy} {T : List String} {s : Strategy} :
    s ∈ (App.filter_strategies_by_tags S T).1 ↔
      s ∈ S ∧ ∃ t ∈ T, t ∈ s.tags.getD [] := by
  simp [App.filter_strategies_by_tags, List.mem_filter, List.any_eq_true]

/-- Characterization of membership in the matched tag list of the
src/app.py matcher. -/
theorem App.mem_matchedTags {S : List Strategy} {T : List String} {t : String} :
    t ∈ (App.filter_strategies_by_tags S T).2 ↔
      t ∈ T ∧ ∃ s ∈ (App.filter_strategies_by_tags S T).1, t ∈ s.tags.getD [] := by
  simp only [App.filter_strategies_by_tags, mem_sortedSet, List.mem_flatten, List.mem_map,
    List.mem_filter, decide_eq_true_eq]
  constructor
  · rintro ⟨l, ⟨s, hs, rfl⟩, htl⟩
    rcases List.mem_filter.mp htl with ⟨hmem, hT⟩
    exact ⟨of_decide_eq_true hT, s, hs, hmem⟩
  · rintro ⟨hT, s, hs, hmem⟩
    exact ⟨(s.tags.getD []).filter (fun t => decide (t ∈ T)), ⟨s, hs, rfl⟩,
      List.mem_filter.mpr ⟨hmem, decide_eq_true hT⟩⟩

/-- The matched strategies form a sublist of the store, so the load
order is preserved. -/
theorem App.matched_sublist (S : List Strategy) (T : List String) :
    List.Sublist (App.filter_strategies_by_tags S T).1 S :=
  List.filter_sublist S

/-- The matcher on an empty tag list yields two empty lists. -/
theorem App.filter_empty_tags (S : List Strategy) :
    App.filter_strategies_by_tags S [] = ([], []) := by
  have h1 : (App.filter_strategies_by_tags S []).1 = [] := by
    simp [App.filter_strategies_by_tags]
  have h2 : (App.filter_strategies_by_tags S []).2 = [] := by
    simp [App.filter_strategies_by_tags, sortedSet]
  calc App.filter_strategies_by_tags S []
      = ((App.filter_strategies_by_tags S []).1, (App.filter_strategies_by_tags S []).2) := rfl
    _ = ([], []) := by rw [h1, h2]

/-- When a strategy has a tags field, the batch any() test reduces to
the src/app.py predicate. -/
theorem Batch.anyTagMatch_eq {s : Strategy} (T : List String) (h : s.tags ≠ none) :
    Batch.anyTagMatch s T = Except.ok (T.any (fun t => decide (t ∈ s.tags.getD []))) := by
  cases T with
  | nil => rfl
  | cons t ts =>
    cases htags : s.tags with
    | none => exact absurd htags h
    | some l => simp [Batch.anyTagMatch, htags]

/-- When every strategy has a tags field, the batch comprehension
reduces to the src/app.py filter. -/
theorem Batch.matchedE_eq {T : List String} :
    ∀ {S : List Strategy}, (∀ s ∈ S, s.tags ≠ none) →
      Batch.matchedE T S
        = Except.ok (S.filter (fun s => T.any (fun t => decide (t ∈ s.tags.getD [])))) := by
  intro S
  induction S with
  | nil => intro _; rfl
  | cons s rest ih =>
    intro h
    have hs := h s (List.mem_cons_self s rest)
    have hrest := ih (fun x hx => h x (List.mem_cons_of_mem s hx))
    simp only [Batch.matchedE, Batch.anyTagMatch_eq T hs, hrest, List.filter_cons]

/-- When every matched strategy has a tags field, the tag-list pass
succeeds with the defaulted projections. -/
theorem Batch.tagsOfMatchedE_eq :
    ∀ {M : List Strategy}, (∀ s ∈ M, s.tags ≠ none) →
      Batch.tagsOfMatchedE M = Except.ok (M.map (fun s => s.tags.getD [])) := by
  intro M
  induction M with
  | nil => intro _; rfl
  | cons s rest ih =>
    intro h
    cases htags : s.tags with
    | none => exact absurd htags (h s (List.mem_cons_self s rest))
    | some l =>
      rw [Batch.tagsOfMatchedE, htags, ih (fun x hx => h x (List.mem_cons_of_mem s hx))]
      simp [htags]

/-- The batch matcher refines the src/app.py matcher on stores whose
records all carry a tags field. -/
theorem Batch.filter_refines (S : List Strategy) (T : List String)
    (h : ∀ s ∈ S, s.tags ≠ none) :
    Batch.filter_strategies_by_tags S T
      = Except.ok (App.filter_strategies_by_tags S T) := by
  have hmatched : ∀ s ∈ S.filter (fun s => T.any (fun t => decide (t ∈ s.tags.getD []))),
      s.tags ≠ none := fun s hs => h s (List.mem_filter.mp hs).1
  simp only [Batch.filter_strategies_by_tags, Batch.matchedE_eq h,
    Batch.tagsOfMatchedE_eq hmatched]
  simp only [App.filter_strategies_by_tags, List.map_map]
  rfl

/-- C1 counterexample: the claim says the matcher removes duplicates by
title, but two distinct strategies sharing the title A both survive the
filter, so no deduplication by title happens. -/
theorem claim_C1_counterexample :
    (App.filter_strategies_by_tags
        [⟨"A", "d1", some ["x"]⟩, ⟨"A", "d2", some ["x"]⟩] ["x"]).1
      = [⟨"A", "d1", some ["x"]⟩, ⟨"A", "d2", some ["x"]⟩]
    ∧ (⟨"A", "d1", some ["x"]⟩ : Strategy).title = (⟨"A", "d2", some ["x"]⟩ : Strategy).title
    ∧ (⟨"A", "d1", some ["x"]⟩ : Strategy) ≠ (⟨"A", "d2", some ["x"]⟩ : Strategy) := by
  refine ⟨rfl, rfl, ?_⟩
  decide

/-- C1 (amended): for every strategy list S and tag list T the matcher
returns exactly the strategies of S whose tag set meets T, in the load
order of S with every occurrence kept (no deduplication by title), and
matched_tags is the sorted duplicate-free list of exactly the tags of
T occurring in some matched strategy, hence a subset of T; on an empty
tag list both outputs are empty. -/
theorem claim_C1_amended (S : List Strategy) (T : List String) :
    (∀ s, s ∈ (App.filter_strategies_by_tags S T).1 ↔
        s ∈ S ∧ ∃ t ∈ T, t ∈ s.tags.getD [])
    ∧ List.Sublist (App.filter_strategies_by_tags S T).1 S
    ∧ (App.filter_strategies_by_tags S T).2.Sorted (fun a b => strLe a b = true)
    ∧ (App.filter_strategies_by_tags S T).2.Nodup
    ∧ (∀ t, t ∈ (App.filter_strategies_by_tags S T).2 ↔
        t ∈ T ∧ ∃ s ∈ (App.filter_strategies_by_tags S T).1, t ∈ s.tags.getD [])
    ∧ App.filter_strategies_by_tags S [] = ([], []) := by
  refine ⟨fun s => App.mem_matched, App.matched_sublist S T, ?_, ?_,
    fun t => App.mem_matchedTags, App.filter_empty_tags S⟩
  · show (sortedSet _).Sorted _
    exact sortedSet_sorted _
  · show (sortedSet _).Nodup
    exact sortedSet_nodup _

/-- C9: strategy matching is monotone in the detected tags; growing the
tag list can only grow the matched strategies and the matched tags. -/
theorem claim_C9 (S : List Strategy) (T Tp : List String) (hsub : ∀ t ∈ T, t ∈ Tp) :
    (∀ s, s ∈ (App.filter_strategies_by_tags S T).1 →
        s ∈ (App.filter_strategies_by_tags S Tp).1)
    ∧ (∀ t, t ∈ (App.filter_strategies_by_tags S T).2 →
        t ∈ (App.filter_strategies_by_tags S Tp).2) := by
  constructor
  · intro s hs
    rcases App.mem_matched.mp hs with ⟨hS, t, htT, htag⟩
    exact App.mem_matched.mpr ⟨hS, t, hsub t htT, htag⟩
  · intro t ht
    rcases App.mem_matchedTags.mp ht with ⟨htT, s, hs, htag⟩
    rcases App.mem_matched.mp hs with ⟨hS, u, huT, hutag⟩
    exact App.mem_matchedTags.mpr
      ⟨hsub t htT, s, App.mem_matched.mpr ⟨hS, u, hsub u huT, hutag⟩, htag⟩

/-- C9 witness at a concrete store and pair of tag lists. -/
theorem claim_C9_witness :
    (∀ s, s ∈ (App.filter_strategies_by_tags [⟨"A", "d", some ["x", "y"]⟩] ["x"]).1 →
        s ∈ (App.filter_strategies_by_tags [⟨"A", "d", some ["x", "y"]⟩] ["x", "z"]).1)
    ∧ (∀ t, t ∈ (App.filter_strategies_by_tags [⟨"A", "d", some ["x", "y"]⟩] ["x"]).2 →
        t ∈ (App.filter_strategies_by_tags [⟨"A", "d", some ["x", "y"]⟩] ["x", "z"]).2) :=
  claim_C9 [⟨"A", "d", some ["x", "y"]⟩] ["x"] ["x", "z"] (by decide)

/-- C10: when every strategy record carries a tags field the two copies
of filter_strategies_by_tags agree, the batch one wrapped in a
successful Except; without that precondition the batch copy can raise
KeyError, while the src/app.py copy is total by construction since it
reads the field with a get defaulting to an empty list. -/
theorem claim_C10 :
    (∀ (S : List Strategy) (T : List String), (∀ s ∈ S, s.tags ≠ none) →
        Batch.filter_strategies_by_tags S T
          = Except.ok (App.filter_strategies_by_tags S T))
    ∧ (∃ (S : List Strategy) (T : List String) (e : PyErr),
        Batch.filter_strategies_by_tags S T = Except.error e) :=
  ⟨fun S T h => Batch.filter_refines S T h,
   ⟨[⟨"A", "d", none⟩], ["x"], PyErr.keyError, rfl⟩⟩

/-- C10 witness at a concrete store satisfying the precondition. -/
theorem claim_C10_witness :
    Batch.filter_strategies_by_tags [⟨"A", "d", some ["x"]⟩] ["x"]
      = Except.ok (App.filter_strategies_by_tags [⟨"A", "d", some ["x"]⟩] ["x"]) :=
  claim_C10.1 [⟨"A", "d", some ["x"]⟩] ["x"] (by decide)

/-- C2 counterexample: the claim says extract_tags locates a bracketed
array inside surrounding prose, but the src/app.py copy passes the
whole response to json.loads, so prose around a well-formed array
yields the empty fallback instead of the decoded tags. -/
theorem claim_C2_counterexample :
    App.extract_tags (some ("Here are the tags: [\"skeptical\"]")) = Json.arr []
    ∧ Json.arr [] ≠ Json.arr [Json.str ("skeptical")] := by
  refine ⟨rfl, ?_⟩
  intro h
  injection h with h2
  cases h2

/-- C2 (amended): the src/app.py extract_tags returns the decoded value
exactly when the entire stripped response decodes, and an empty list on
any failure including the none oracle; the src/batch_test_gpt.py copy
locates the first minimal bracketed substring, tolerating surrounding
prose, returns its decoded value with the stripped raw text, and falls
back to an empty list with empty raw text on any failure; neither
raises. -/
theorem claim_C2_amended :
    (∀ c v, jsonLoadsChars (pyStrip c.data) = some v → App.extract_tags (some c) = v)
    ∧ (∀ c, jsonLoadsChars (pyStrip c.data) = none → App.extract_tags (some c) = Json.arr [])
    ∧ App.extract_tags none = Json.arr []
    ∧ (∀ c sub v, bracketSearch (pyStrip c.data) = some sub → jsonLoadsChars sub = some v →
        Batch.extract_tags (some c) = (v, String.mk (pyStrip c.data)))
    ∧ (∀ c, bracketSearch (pyStrip c.data) = none →
        Batch.extract_tags (some c) = (Json.arr [], ""))
    ∧ (∀ c sub, bracketSearch (pyStrip c.data) = some sub → jsonLoadsChars sub = none →
        Batch.extract_tags (some c) = (Json.arr [], ""))
    ∧ Batch.extract_tags none = (Json.arr [], "")
    ∧ Batch.extract_tags (some ("Sure! [\"a\"] done"))
        = (Json.arr [Json.str ("a")], "Sure! [\"a\"] done") := by
  refine ⟨?_, ?_, rfl, ?_, ?_, ?_, rfl, rfl⟩
  · intro c v h; simp [App.extract_tags, h]
  · intro c h; simp [App.extract_tags, h]
  · intro c sub v hb hj; simp [Batch.extract_tags, hb, hj]
  · intro c hb; simp [Batch.extract_tags, hb]
  · intro c sub hb hj; simp [Batch.extract_tags, hb, hj]

/-- C2 witness: a bare JSON array decodes through the src/app.py copy. -/
theorem claim_C2_amended_witness :
    App.extract_tags (some (" [\"a\", \"b\"] ")) = Json.arr [Json.str ("a"), Json.str ("b")] :=
  claim_C2_amended.1 (" [\"a\", \"b\"] ") (Json.arr [Json.str ("a"), Json.str ("b")]) rfl

/-- C5 counterexample: the claim says a parsed object lacking the
rebuttal field yields the empty string, but generate_rebuttal returns
the non-empty placeholder text instead. -/
theorem claim_C5_counterexample :
    generate_rebuttal (some ("\x7b\"reply\": \"ok\"\x7d")) = Json.str ("[Rebuttal missing]")
    ∧ Json.str ("[Rebuttal missing]") ≠ Json.str ("") := by
  refine ⟨rfl, ?_⟩
  intro h
  injection h with h2
  exact absurd h2 (by decide)

/-- C5 (amended): generate_rebuttal returns the empty string on a call
failure, a missing brace pair, or a decode failure; when the object
decodes but lacks the rebuttal key it returns the fixed placeholder
text, and when the key is present it returns that value. -/
theorem claim_C5_amended :
    generate_rebuttal none = Json.str ("")
    ∧ (∀ c, braceSearch (rebuttalPreprocess c) = none →
        generate_rebuttal (some c) = Json.str (""))
    ∧ (∀ c sub, braceSearch (rebuttalPreprocess c) = some sub → jsonLoadsChars sub = none →
        generate_rebuttal (some c) = Json.str (""))
    ∧ (∀ c sub parsed, braceSearch (rebuttalPreprocess c) = some sub →
        jsonLoadsChars sub = some parsed → parsed.getKey ("rebuttal") = none →
        generate_rebuttal (some c) = Json.str ("[Rebuttal missing]"))
    ∧ (∀ c sub parsed v, braceSearch (rebuttalPreprocess c) = some sub →
        jsonLoadsChars sub = some parsed → parsed.getKey ("rebuttal") = some v →
        generate_rebuttal (some c) = v) := by
  refine ⟨rfl, ?_, ?_, ?_, ?_⟩
  · intro c hb; simp [generate_rebuttal, hb]
  · intro c sub hb hj; simp [generate_rebuttal, hb, hj]
  · intro c sub parsed hb hj hk; simp [generate_rebuttal, hb, hj, hk]
  · intro c sub parsed v hb hj hk; simp [generate_rebuttal, hb, hj, hk]

/-- C5 witness: a well-formed rebuttal object returns its field. -/
theorem claim_C5_amended_witness :
    generate_rebuttal (some ("\x7b\"rebuttal\": \"No.\"\x7d")) = Json.str ("No.") :=
  claim_C5_amended.2.2.2.2 ("\x7b\"rebuttal\": \"No.\"\x7d")
    ("\x7b\"rebuttal\": \"No.\"\x7d").data
    (Json.obj [("rebuttal", Json.str ("No."))]) (Json.str ("No.")) rfl rfl rfl

/-- C6: evaluate_reply is a total function of its oracle input, so it
never raises past the pipeline boundary, and on every failure input in
the claim (call error, no brace pair found, decode error) it returns
the record with confidence_score None, empty suggested_improvements
and ultimate_reply, and the fixed evaluation-failed marker as the
justification. -/
theorem claim_C6 (resp : Option String)
    (h : resp = none
      ∨ (∃ c, resp = some c ∧ braceSearch (evalPreprocess c) = none)
      ∨ (∃ c sub, resp = some c ∧ braceSearch (evalPreprocess c) = some sub ∧
          jsonLoadsChars sub = none)) :
    evaluate_reply resp = ⟨Json.null, "Evaluation failed.", "", ""⟩ := by
  rcases h with rfl | ⟨c, rfl, hb⟩ | ⟨c, sub, rfl, hb, hj⟩
  · rfl
  · simp [evaluate_reply, hb, evalFailure]
  · simp [evaluate_reply, hb, hj, evalFailure]

/-- C6 witness: a response with no brace pair produces the failure
record. -/
theorem claim_C6_witness :
    evaluate_reply (some ("no object here")) = ⟨Json.null, "Evaluation failed.", "", ""⟩ :=
  claim_C6 (some ("no object here")) (Or.inr (Or.inl ⟨"no object here", rfl, rfl⟩))

/-- C4 counterexample: the claim says a completed result with a missing
explanation key receives a fixed non-empty placeholder, but the
normalization yields the empty string on such a result; the
clarification placeholder is only used when needs_clarification is
truthy. -/
theorem claim_C4_counterexample :
    (normalizeParsed (Json.obj [("message", Json.str ("m")),
        ("needs_clarification", Json.bool false)])).needs = false
    ∧ (normalizeParsed (Json.obj [("message", Json.str ("m")),
        ("needs_clarification", Json.bool false)])).expl = Json.str ("") :=
  ⟨rfl, rfl⟩

/-- C4 (amended): a missing needs_clarification key is treated as
false, a missing input_type key yields the unknown marker, and a
missing explanation key yields the empty string on a completed result
and the fixed clarification placeholder on a clarification result. -/
theorem claim_C4_amended (parsed : Json) :
    (parsed.getKey ("needs_clarification") = none → (normalizeParsed parsed).needs = false)
    ∧ (parsed.getKey ("input_type") = none → (normalizeParsed parsed).itype = Json.str ("unknown"))
    ∧ (parsed.getKey ("explanation") = none →
        (normalizeParsed parsed).expl
          = Json.str (if (normalizeParsed parsed).needs then ("Needs clarification") else (""))) := by
  refine ⟨fun h => ?_, fun h => ?_, fun h => ?_⟩
  · simp [normalizeParsed, h, Json.truthy]
  · simp [normalizeParsed, h]
  · simp [normalizeParsed, h, Json.truthy]

/-- C4 witness at the empty object. -/
theorem claim_C4_amended_witness :
    (normalizeParsed (Json.obj [])).needs = false
    ∧ (normalizeParsed (Json.obj [])).itype = Json.str ("unknown")
    ∧ (normalizeParsed (Json.obj [])).expl
        = Json.str (if (normalizeParsed (Json.obj [])).needs then ("Needs clarification") else ("")) :=
  ⟨(claim_C4_amended (Json.obj [])).1 rfl, (claim_C4_amended (Json.obj [])).2.1 rfl,
   (claim_C4_amended (Json.obj [])).2.2 rfl⟩

/-- C3 counterexample: on a response with no brace pair the generate
block ends in an uncaught AttributeError with the session state,
including the still-set run flag, unchanged; no handler in the block
produces any not-valid-JSON message, so only the framework traceback is
displayed. -/
theorem claim_C3_counterexample :
    sessionStep sampleAppState ("c") ("d") ("sid") (Json.arr []) [] [] ("Sorry, no JSON here.") none none
      = ⟨sampleAppState, StepOutcome.exception PyErr.attributeError, false, false⟩
    ∧ sampleAppState.runFlag = true :=
  ⟨rfl, rfl⟩

/-- C3 (amended): whenever the fence-stripped response yields no brace
pair or its extracted object does not decode, the generate block ends
in an uncaught exception, appends no Run, leaves the whole session
state (and hence the stored history and the run flag enabling a retry)
untouched, and invokes neither the rebuttal nor the evaluation stage;
no specific not-valid-JSON message is surfaced. -/
theorem claim_C3_amended (st : AppState) (comment draft sid : String) (tags : Json)
    (strats : List Strategy) (mts : List String) (resp : String) (rr er : Option String)
    (h : braceSearch (stripJsonFence resp.data) = none
      ∨ ∃ sub, braceSearch (stripJsonFence resp.data) = some sub ∧ jsonLoadsChars sub = none) :
    ∃ e, sessionStep st comment draft sid tags strats mts resp rr er
      = ⟨st, StepOutcome.exception e, false, false⟩ := by
  rcases h with hb | ⟨sub, hb, hj⟩
  · exact ⟨PyErr.attributeError, by simp only [sessionStep, hb]⟩
  · exact ⟨PyErr.jsonDecodeError, by simp only [sessionStep, hb, hj]⟩

/-- C3 witness at a braceless response. -/
theorem claim_C3_amended_witness :
    ∃ e, sessionStep sampleAppState ("c") ("d") ("s") Json.null [] [] ("no braces") none none
      = ⟨sampleAppState, StepOutcome.exception e, false, false⟩ :=
  claim_C3_amended sampleAppState ("c") ("d") ("s") Json.null [] [] ("no braces") none none (Or.inl rfl)

/-- C7: when the decoded reply object has a truthy needs_clarification
the generate block appends exactly one clarification entry and the
rerun raised on line 335 prevents the rebuttal generator and the reply
evaluator from ever being invoked for that run. -/
theorem claim_C7 (st : AppState) (comment draft sid : String) (tags : Json)
    (strats : List Strategy) (mts : List String) (resp : String)
    (rr er : Option String) (sub : List Char) (parsed : Json)
    (h1 : braceSearch (stripJsonFence resp.data) = some sub)
    (h2 : jsonLoadsChars sub = some parsed)
    (h3 : (normalizeParsed parsed).needs = true) :
    (sessionStep st comment draft sid tags strats mts resp rr er).rebuttalInvoked = false
    ∧ (sessionStep st comment draft sid tags strats mts resp rr er).evalInvoked = false
    ∧ (sessionStep st comment draft sid tags strats mts resp rr er).outcome
        = StepOutcome.reranClarification
    ∧ ∃ run, (sessionStep st comment draft sid tags strats mts resp rr er).state.history
        = st.history ++ [run] := by
  simp only [sessionStep, h1, h2, h3, if_true]
  exact ⟨trivial, trivial, trivial, _, rfl⟩

/-- C7 witness at a concrete clarification response. -/
theorem claim_C7_witness :
    (sessionStep sampleAppState ("c") ("") ("s") Json.null [] []
        ("\x7b\"follow_up_question\": \"Q\", \"needs_clarification\": true\x7d")
        none none).rebuttalInvoked = false
    ∧ (sessionStep sampleAppState ("c") ("") ("s") Json.null [] []
        ("\x7b\"follow_up_question\": \"Q\", \"needs_clarification\": true\x7d")
        none none).evalInvoked = false
    ∧ (sessionStep sampleAppState ("c") ("") ("s") Json.null [] []
        ("\x7b\"follow_up_question\": \"Q\", \"needs_clarification\": true\x7d")
        none none).outcome = StepOutcome.reranClarification
    ∧ ∃ run, (sessionStep sampleAppState ("c") ("") ("s") Json.null [] []
        ("\x7b\"follow_up_question\": \"Q\", \"needs_clarification\": true\x7d")
        none none).state.history = sampleAppState.history ++ [run] :=
  claim_C7 sampleAppState ("c") ("") ("s") Json.null [] []
    ("\x7b\"follow_up_question\": \"Q\", \"needs_clarification\": true\x7d") none none
    ("\x7b\"follow_up_question\": \"Q\", \"needs_clarification\": true\x7d").data
    (Json.obj [("follow_up_question", Json.str ("Q")), ("needs_clarification", Json.bool true)])
    rfl rfl rfl

/-- A navigation click never changes the stored history. -/
theorem navStep_history (s : ViewState) (a : NavAction) : (navStep s a).history = s.history := by
  cases a <;> rfl

/-- A navigation click keeps an in-range index in range. -/
theorem navStep_bounds (s : ViewState) (a : NavAction) (hN : 2 ≤ s.history.length)
    (h0 : 0 ≤ s.history_index) (h1 : s.history_index ≤ (s.history.length : Int) - 2) :
    0 ≤ (navStep s a).history_index
    ∧ (navStep s a).history_index ≤ (s.history.length : Int) - 2 := by
  obtain ⟨h, i⟩ := s
  have h2 : (2 : Int) ≤ (h.length : Int) := by exact_mod_cast hN
  dsimp only at h0 h1
  cases a with
  | prev =>
    dsimp only [navStep]
    refine ⟨le_max_left 0 _, max_le (by omega) (by omega)⟩
  | next =>
    dsimp only [navStep]
    refine ⟨le_min (by omega) (by omega), ?_⟩
    exact le_trans (min_le_left _ _) (by omega)

/-- The invariant extends to any click sequence. -/
theorem navRun_inv (acts : List NavAction) :
    ∀ s : ViewState, 2 ≤ s.history.length → 0 ≤ s.history_index →
      s.history_index ≤ (s.history.length : Int) - 2 →
      (navRun s acts).history = s.history
      ∧ 0 ≤ (navRun s acts).history_index
      ∧ (navRun s acts).history_index ≤ (s.history.length : Int) - 2 := by
  induction acts with
  | nil => exact fun s _ h2 h3 => ⟨rfl, h2, h3⟩
  | cons a as ih =>
    intro s hN h0 h1
    have hb := navStep_bounds s a hN h0 h1
    have hh := navStep_history s a
    have hs : navRun s (a :: as) = navRun (navStep s a) as := rfl
    have hN2 : 2 ≤ (navStep s a).history.length := by rw [hh]; exact hN
    have h12 : (navStep s a).history_index ≤ ((navStep s a).history.length : Int) - 2 := by
      rw [hh]; exact hb.2
    have hrec := ih (navStep s a) hN2 hb.1 h12
    refine ⟨by rw [hs, hrec.1, hh], by rw [hs]; exact hrec.2.1, ?_⟩
    rw [hs]
    have hlast := hrec.2.2
    rw [hh] at hlast
    exact hlast

/-- C8: for a history of N runs with N at least 2 and any sequence of
prev and next clicks starting from an in-range index, the browsing
index stays in the closed range from 0 to N - 2 and the history itself
is never modified; clicking prev at index 0 and next at index N - 2
leave the state unchanged. -/
theorem claim_C8 (s : ViewState) (acts : List NavAction)
    (hN : 2 ≤ s.history.length)
    (h0 : 0 ≤ s.history_index)
    (h1 : s.history_index ≤ (s.history.length : Int) - 2) :
    (navRun s acts).history = s.history
    ∧ 0 ≤ (navRun s acts).history_index
    ∧ (navRun s acts).history_index ≤ (s.history.length : Int) - 2
    ∧ (s.history_index = 0 → navStep s NavAction.prev = s)
    ∧ (s.history_index = (s.history.length : Int) - 2 → navStep s NavAction.next = s) := by
  have hinv := navRun_inv acts s hN h0 h1
  refine ⟨hinv.1, hinv.2.1, hinv.2.2, ?_, ?_⟩
  · intro hz
    obtain ⟨h, i⟩ := s
    simp only at hz
    subst hz
    simp [navStep]
  · intro hz
    obtain ⟨h, i⟩ := s
    have h2 : (2 : Int) ≤ (h.length : Int) := by exact_mod_cast hN
    simp only at hz
    subst hz
    simp only [navStep, ViewState.mk.injEq]
    refine ⟨trivial, ?_⟩
    rw [min_eq_left (by omega)]
    omega

/-- C8 witness on a three-run history starting at index 0. -/
theorem claim_C8_witness :
    (navRun ⟨[sampleRun, sampleRun, sampleRun], 0⟩ [NavAction.next, NavAction.prev]).history
      = (⟨[sampleRun, sampleRun, sampleRun], 0⟩ : ViewState).history
    ∧ 0 ≤ (navRun ⟨[sampleRun, sampleRun, sampleRun], 0⟩
        [NavAction.next, NavAction.prev]).history_index
    ∧ (navRun ⟨[sampleRun, sampleRun, sampleRun], 0⟩
        [NavAction.next, NavAction.prev]).history_index
        ≤ ((⟨[sampleRun, sampleRun, sampleRun], 0⟩ : ViewState).history.length : Int) - 2
    ∧ ((⟨[sampleRun, sampleRun, sampleRun], 0⟩ : ViewState).history_index = 0 →
        navStep ⟨[sampleRun, sampleRun, sampleRun], 0⟩ NavAction.prev
          = ⟨[sampleRun, sampleRun, sampleRun], 0⟩)
    ∧ ((⟨[sampleRun, sampleRun, sampleRun], 0⟩ : ViewState).history_index
          = ((⟨[sampleRun, sampleRun, sampleRun], 0⟩ : ViewState).history.length : Int) - 2 →
        navStep ⟨[sampleRun, sampleRun, sampleRun], 0⟩ NavAction.next
          = ⟨[sampleRun, sampleRun, sampleRun], 0⟩) :=
  claim_C8 ⟨[sampleRun, sampleRun, sampleRun], 0⟩ [NavAction.next, NavAction.prev]
    (by decide) (by decide) (by decide)

/-- C1 witness: the amended theorem applied at a concrete store. -/
theorem claim_C1_amended_witness :
    App.filter_strategies_by_tags [⟨("A"), ("d1"), some [("x")]⟩] [] = ([], []) :=
  (claim_C1_amended [⟨("A"), ("d1"), some [("x")]⟩] [("x")]).2.2.2.2.2
